import Mathlib

/-!
# Universal Data Cleaner — verification of the profiling / rule-engine core

Shallow embedding of the repository's core (`helpers.py`, `profiler.py`,
`rule_engine.py`) and proofs about it.

Modelling conventions:
* A cell is `Option Val`; `none` is the missing marker (pandas `NaN`/`NaT`).
* `Val.num` carries an exact rational (pandas float/int cells, without
  floating-point rounding, which no claim here observes).
* `Val.dt` carries an integer timestamp code.  `pd.to_datetime` maps an ISO
  date string `"YYYY-MM-DD"` to the code `y*10000 + m*100 + d` and a numeric
  cell to its integer part (pandas interprets numbers as nanoseconds since
  the epoch, so a numeric cell always parses).  The code is injective on the
  inputs used here; no claim observes timestamp arithmetic, only parse
  success/failure and equality.
* Statistics that pandas turns into `NaN` (quantile/mean of an empty series)
  are `Option ℚ` with `none` playing the role of `NaN`; comparisons against
  `none` are `false`, exactly as every comparison with `NaN` is `False`.
* A dataframe is a list of column names plus row-major cells.  Numpy storage
  kinds (`series.dtype.kind`) are modelled by `DKind` and passed explicitly
  to the helpers that inspect them.
-/

/-- A non-missing cell value: a rational number, a timestamp, or a string. -/
inductive Val where
  | num (q : ℚ)
  | dt (n : ℤ)
  | str (s : String)
deriving DecidableEq

/-- A cell: `none` is the missing marker (NaN/NaT/None). -/
abbrev Cell := Option Val

/-- A row of cells, aligned with the dataframe's column-name list. -/
abbrev Row := List Cell

/-- A dataframe: ordered column names plus row-major cells. -/
structure DataFrame where
  cols : List String
  rows : List Row
deriving DecidableEq

/-- Numpy storage kind (`series.dtype.kind`): integer, unsigned, float,
object, datetime64, category. -/
inductive DKind where
  | i | u | f | obj | M | cat
deriving DecidableEq

/-- Model of `series.dtype.kind in "iuf"` — the numeric storage kinds. -/
def DKind.isNumericKind : DKind → Bool
  | .i | .u | .f => true
  | _ => false

/-- Decimal digit value of a character, if it is a digit. -/
def digit? (c : Char) : Option ℕ :=
  if c.isDigit then some (c.toNat - 48) else none

/-- Parse an ISO `"YYYY-MM-DD"` date string to its timestamp code
`y*10000 + m*100 + d` (the formats pandas accepts are wider; the ISO form is
the only one the spec's examples use, and parse success is all any claim
observes). -/
def parseDate (s : String) : Option ℤ :=
  match s.toList with
  | [y1, y2, y3, y4, '-', m1, m2, '-', d1, d2] => do
    let a ← digit? y1
    let b ← digit? y2
    let c ← digit? y3
    let d ← digit? y4
    let e ← digit? m1
    let f ← digit? m2
    let g ← digit? d1
    let h ← digit? d2
    let y := 1000 * a + 100 * b + 10 * c + d
    let mo := 10 * e + f
    let da := 10 * g + h
    if 1 ≤ mo && mo ≤ 12 && 1 ≤ da && da ≤ 31 then
      some ((10000 * y + 100 * mo + da : ℕ) : ℤ)
    else none
  | _ => none

/-- Integer part of a rational (exact on the integer-valued cells used
here). -/
def ratInt (q : ℚ) : ℤ := q.num / (q.den : ℤ)

/-- One cell under `pd.to_datetime(·, errors="coerce")`: missing stays
missing (NaT), a numeric cell parses as an epoch offset (pandas treats
numbers as nanoseconds since the epoch — they always parse), a datetime cell
stays, and a string parses iff it is a recognized date literal. -/
def toDatetimeCell (c : Cell) : Cell :=
  match c with
  | none => none
  | some (.num q) => some (.dt (ratInt q))
  | some (.dt n) => some (.dt n)
  | some (.str s) => (parseDate s).map Val.dt

/-- All-digit character run to a natural number; `none` on empty or
non-digit input. -/
def digitsVal : List Char → Option ℕ
  | [] => none
  | cs => cs.foldlM (fun acc c => (digit? c).map (fun d => 10 * acc + d)) 0

/-- Parse a decimal numeral string (optional sign, optional fractional
part), as `pd.to_numeric(·, errors="coerce")` would; anything else is
`none`. -/
def parseNumStr (s : String) : Option ℚ :=
  let core : List Char → Option ℚ := fun l =>
    let ip := l.takeWhile (fun c => c ≠ '.')
    let rest := l.drop ip.length
    match rest with
    | [] => (digitsVal ip).map (fun n => (n : ℚ))
    | _ :: fp => do
      let a ← digitsVal ip
      let b ← digitsVal fp
      some ((a : ℚ) + (b : ℚ) / (10 : ℚ) ^ fp.length)
  match s.toList with
  | '-' :: rest => (core rest).map (fun q => -q)
  | l => core l

/-- One cell under `safe_to_numeric` = `pd.to_numeric(·, errors="coerce")`:
numbers stay, datetimes view as their integer code, strings parse or become
missing, missing stays missing. -/
def safe_to_numeric (c : Cell) : Cell :=
  match c with
  | none => none
  | some (.num q) => some (.num q)
  | some (.dt n) => some (.num (n : ℚ))
  | some (.str s) => (parseNumStr s).map Val.num

/-- Model of `standardize_column_names` on one name: strip, lower-case, spaces to
underscores, drop every character outside `[A-Za-z0-9_]`. -/
def standardizeName (s : String) : String :=
  let t := (s.trim.toLower).replace " " "_"
  String.mk (t.toList.filter (fun c => c.isAlphanum || c = '_'))

/-- Model of `standardize_column_names(df)`: rewrite every column name. -/
def standardize_column_names (df : DataFrame) : DataFrame :=
  { df with cols := df.cols.map standardizeName }

/-- Model of `series.dropna()` restricted to the numeric cells (the columns on which
the source computes statistics are numeric). -/
def dropnaNums (cells : List Cell) : List ℚ :=
  cells.filterMap (fun c =>
    match c with
    | some (.num q) => some q
    | _ => none)

/-- Model of `series.isna().sum()` — number of missing cells. -/
def missingCount (cells : List Cell) : ℕ := cells.countP (·.isNone)

/-- Model of `series.nunique(dropna=True)` — distinct non-missing values. -/
def nuniqueDropna (cells : List Cell) : ℕ := (cells.filterMap id).dedup.length

/-- Model of `try_parse_datetime(series, threshold=0.7)`:
`pd.to_datetime(series, errors="coerce").notna().mean() >= 0.7`.
The mean is over the whole series — missing cells parse to NaT and count in
the denominator.  On an empty series the mean is NaN and the comparison is
`False`. -/
def try_parse_datetime (cells : List Cell) : Bool :=
  if cells.length = 0 then false
  else
    decide ((((cells.map toDatetimeCell).countP (fun c => c.isSome) : ℚ) /
      (cells.length : ℚ)) ≥ 7 / 10)

/-- Model of `infer_column_type(series)`: datetime check first, then numeric storage
kind, then distinct-count categorical check, else text. -/
def infer_column_type (kind : DKind) (cells : List Cell) : String :=
  if try_parse_datetime cells then "datetime"
  else if kind.isNumericKind then "numeric"
  else if nuniqueDropna cells ≤ 20 then "categorical"
  else "text"

/-- Floor of a nonnegative rational as a natural number. -/
def qfloorNat (x : ℚ) : ℕ := x.num.toNat / x.den

/-- Model of `series.quantile(q)` with the default linear interpolation: sort, take
position `q*(n-1)`, interpolate between the neighbouring order statistics.
`none` (NaN) on an empty series. -/
def quantile (xs : List ℚ) (q : ℚ) : Option ℚ :=
  let s := List.insertionSort (· ≤ ·) xs
  if s.length = 0 then none
  else
    let pos : ℚ := q * ((s.length : ℚ) - 1)
    let k : ℕ := qfloorNat pos
    let a := s.getD k 0
    let b := s.getD (k + 1) a
    some (a + (pos - (k : ℚ)) * (b - a))

/-- Model of `calculate_iqr_bounds(series)`: `Q1 - 1.5*IQR` and `Q3 + 1.5*IQR`.
NaN quantiles (empty input) propagate to NaN bounds. -/
def calculate_iqr_bounds (xs : List ℚ) : Option ℚ × Option ℚ :=
  match quantile xs (1 / 4), quantile xs (3 / 4) with
  | some q1, some q3 =>
    let iqr := q3 - q1
    (some (q1 - 3 / 2 * iqr), some (q3 + 3 / 2 * iqr))
  | _, _ => (none, none)

/-- Lexicographic order on character lists by code point. -/
def strLeAux : List Char → List Char → Bool
  | [], _ => true
  | _ :: _, [] => false
  | a :: as, b :: bs =>
    if a.toNat < b.toNat then true
    else if b.toNat < a.toNat then false
    else strLeAux as bs

/-- Lexicographic order on strings (numpy's sort order for string data). -/
def strLe (a b : String) : Bool := strLeAux a.toList b.toList

/-- The total order `Series.mode` sorts by: numbers, then timestamps, then
strings, each by their own order (a mode column is same-typed in practice;
the cross-kind cases only make the order total). -/
def vle (a b : Val) : Bool :=
  match a, b with
  | .num x, .num y => decide (x ≤ y)
  | .num _, .dt _ => true
  | .num _, .str _ => true
  | .dt _, .num _ => false
  | .dt x, .dt y => decide (x ≤ y)
  | .dt _, .str _ => true
  | .str _, .num _ => false
  | .str _, .dt _ => false
  | .str x, .str y => strLe x y

/-- Model of `vle` as a relation, for the sorting lemmas. -/
def vleR (a b : Val) : Prop := vle a b = true

instance : DecidableRel vleR := fun a b => instDecidableEqBool (vle a b) true

/-- Model of `global_rules` — both keys read with truthy `.get`. -/
structure GlobalRules where
  drop_duplicates : Bool := false
  standardize_column_names : Bool := false
deriving DecidableEq

/-- A rule's `missing` fragment: `{strategy: ..., value?: ...}`. -/
structure MissingRule where
  strategy : String
  value : Option Val := none
deriving DecidableEq

/-- A rule's `outliers` fragment: `{method: ...}` (the source only checks
that the fragment is present and truthy; `method` is never read). -/
structure OutlierRule where
  method : String
deriving DecidableEq

/-- A per-column rule; absent keys are `none`/`false` (falsy `.get`). -/
structure Rule where
  drop : Bool := false
  type : Option String := none
  missing : Option MissingRule := none
  outliers : Option OutlierRule := none
deriving DecidableEq

/-- A ruleset; `none` models the key being absent from the dict. -/
structure RuleSet where
  global_rules : Option GlobalRules := none
  columns : Option (List (String × Rule)) := none

/-- Index of a column name in the column list (`df.columns` lookup). -/
def colIdx : List String → String → Option ℕ
  | [], _ => none
  | n :: ns, c => if n = c then some 0 else (colIdx ns c).map (· + 1)

/-- The cells of column `i`, in row order (`self.df[col]`). -/
def colCells (df : DataFrame) (i : ℕ) : List Cell :=
  df.rows.map (fun r => r.getD i none)

/-- Rewrite column `i` cell-wise (`self.df[col] = f(self.df[col])`). -/
def setCol (df : DataFrame) (i : ℕ) (f : Cell → Cell) : DataFrame :=
  { df with rows := df.rows.map (fun r => r.set i (f (r.getD i none))) }

/-- Model of `self.df.drop(columns=[col], inplace=True)`. -/
def dropColumn (df : DataFrame) (col : String) : DataFrame :=
  match colIdx df.cols col with
  | none => df
  | some i => ⟨df.cols.eraseIdx i, df.rows.map (fun r => r.eraseIdx i)⟩

/-- Model of `DataFrame.drop_duplicates()` (keep="first"): drop each row equal to an
earlier row.  `seen` accumulates the retained earlier rows. -/
def dropDupAux (seen : List Row) : List Row → List Row
  | [] => []
  | r :: rs => if r ∈ seen then dropDupAux seen rs else r :: dropDupAux (r :: seen) rs

/-- Model of `self.df.drop_duplicates()`. -/
def dropDupRows (rows : List Row) : List Row := dropDupAux [] rows

/-- Model of `RuleEngine._apply_global_rules`, given the value of the (mandatory)
`global_rules` key. -/
def apply_global_rules (df : DataFrame) (audit : List String) (g : GlobalRules) :
    DataFrame × List String :=
  let (df1, a1) :=
    if g.standardize_column_names then
      (standardize_column_names df, audit ++ ["Standardized column names"])
    else (df, audit)
  if g.drop_duplicates then
    let before := df1.rows.length
    let rows2 := dropDupRows df1.rows
    ({ df1 with rows := rows2 },
      a1 ++ ["Dropped " ++ toString (before - rows2.length) ++ " duplicate rows"])
  else (df1, a1)

/-- Model of `RuleEngine._handle_type_cast` (a categorical cast changes only the
stored dtype, not the cell values, so the dataframe is unchanged). -/
def handle_type_cast (df : DataFrame) (audit : List String) (col : String) (r : Rule) :
    DataFrame × List String :=
  match colIdx df.cols col with
  | none => (df, audit)
  | some i =>
    match r.type with
    | some t =>
      if t = "numeric" then
        (setCol df i safe_to_numeric, audit ++ [col ++ ": cast to numeric"])
      else if t = "datetime" then
        (setCol df i toDatetimeCell, audit ++ [col ++ ": cast to datetime"])
      else if t = "categorical" then
        (df, audit ++ [col ++ ": cast to categorical"])
      else (df, audit)
    | none => (df, audit)

/-- Model of `series.mean()`: sum over count of the non-missing values, NaN when
there are none. -/
def seriesMean (xs : List ℚ) : Option ℚ :=
  if xs.length = 0 then none else some (xs.sum / (xs.length : ℚ))

/-- Model of `series.median()` = `series.quantile(0.5)` with linear interpolation. -/
def seriesMedian (xs : List ℚ) : Option ℚ := quantile xs (1 / 2)

/-- Model of `series.mode()`: the non-missing values of maximal frequency, without
duplicates, sorted ascending (pandas sorts the modes before returning). -/
def seriesMode (cells : List Cell) : List Val :=
  let vals := cells.filterMap id
  let maxFreq := (vals.map (fun v => vals.count v)).foldr max 0
  List.insertionSort vleR (vals.dedup.filter (fun v => vals.count v = maxFreq))

/-- Model of `series.fillna(fill)` on one cell, where `fill` may itself be NaN
(`none`), in which case filling is a no-op. -/
def fillCell (fill : Cell) (c : Cell) : Cell :=
  match c with
  | none => fill
  | some v => some v

/-- Model of `RuleEngine._handle_missing`.  The `mode` branch evaluates
`self.df[col].mode()[0]`, which raises `KeyError: 0` when the mode list is
empty (all-missing column); the error is modelled as `Except.error` and
aborts the whole `apply` call, as an uncaught exception does. -/
def handle_missing (df : DataFrame) (audit : List String) (col : String) (r : Rule) :
    Except String (DataFrame × List String) :=
  match r.missing with
  | none => .ok (df, audit)
  | some mr =>
    if mr.strategy = "" then .ok (df, audit)
    else
      match colIdx df.cols col with
      | none => .ok (df, audit)
      | some i =>
        let cells := colCells df i
        let before := missingCount cells
        let step : Except String DataFrame :=
          if mr.strategy = "mean" then
            .ok (setCol df i (fillCell ((seriesMean (dropnaNums cells)).map Val.num)))
          else if mr.strategy = "median" then
            .ok (setCol df i (fillCell ((seriesMedian (dropnaNums cells)).map Val.num)))
          else if mr.strategy = "mode" then
            match seriesMode cells with
            | [] => .error "KeyError: 0"
            | m :: _ => .ok (setCol df i (fillCell (some m)))
          else if mr.strategy = "constant" then
            .ok (setCol df i (fillCell (some (mr.value.getD (Val.str "Unknown")))))
          else if mr.strategy = "drop" then
            .ok { df with rows := df.rows.filter (fun row => (row.getD i none).isSome) }
          else .ok df
        match step with
        | .error e => .error e
        | .ok df2 =>
          let after := missingCount (colCells df2 i)
          .ok (df2, audit ++ [col ++ ": missing handled (" ++ toString before ++
            " → " ++ toString after ++ ") using " ++ mr.strategy])

/-- Model of `value >= bound` under pandas comparison semantics: `False` whenever the
cell is missing (NaN) or the bound is NaN. -/
def cellGE (c : Cell) (b : Option ℚ) : Bool :=
  match c, b with
  | some (.num q), some l => decide (l ≤ q)
  | _, _ => false

/-- Model of `value <= bound` under pandas comparison semantics. -/
def cellLE (c : Cell) (b : Option ℚ) : Bool :=
  match c, b with
  | some (.num q), some u => decide (q ≤ u)
  | _, _ => false

/-- Model of `RuleEngine._handle_outliers`: bounds over the column after `dropna`,
then keep the rows where `(df[col] >= lower) & (df[col] <= upper)` — the
very comparison the source runs, including its NaN behaviour. -/
def handle_outliers (df : DataFrame) (audit : List String) (col : String) (r : Rule) :
    DataFrame × List String :=
  match r.outliers with
  | none => (df, audit)
  | some _ =>
    match colIdx df.cols col with
    | none => (df, audit)
    | some i =>
      let (lower, upper) := calculate_iqr_bounds (dropnaNums (colCells df i))
      let before := df.rows.length
      let rows2 := df.rows.filter
        (fun row => cellGE (row.getD i none) lower && cellLE (row.getD i none) upper)
      ({ df with rows := rows2 },
        audit ++ [col ++ ": removed " ++ toString (before - rows2.length) ++
          " outliers using IQR"])

/-- One iteration of `RuleEngine.apply`'s per-column loop. -/
def applyColRule (st : DataFrame × List String) (col : String) (r : Rule) :
    Except String (DataFrame × List String) :=
  let (df, audit) := st
  if (colIdx df.cols col).isNone then .ok (df, audit)
  else if r.drop then
    .ok (dropColumn df col, audit ++ ["Dropped column: " ++ col])
  else do
    let st1 := handle_type_cast df audit col r
    let st2 ← handle_missing st1.1 st1.2 col r
    .ok (handle_outliers st2.1 st2.2 col r)

/-- Model of `RuleEngine.apply`: global phase (reading the mandatory `global_rules`
key — absent key raises `KeyError`), then the per-column loop over the
optional `columns` key (absent key defaults to an empty dict). -/
def RuleEngine.apply (df : DataFrame) (rules : RuleSet) :
    Except String (DataFrame × List String) :=
  match rules.global_rules with
  | none => .error "KeyError: global_rules"
  | some g =>
    let st := apply_global_rules df [] g
    (rules.columns.getD []).foldlM (fun st cr => applyColRule st cr.1 cr.2) st

/-- Model of `value < bound` / `value > bound` under pandas comparison semantics
(`False` on missing cells and NaN bounds), for the profiler's outlier
mask `(series < lower) | (series > upper)`. -/
def cellLT (c : Cell) (b : Option ℚ) : Bool :=
  match c, b with
  | some (.num q), some l => decide (q < l)
  | _, _ => false

/-- Model of `value > bound` under pandas comparison semantics. -/
def cellGT (c : Cell) (b : Option ℚ) : Bool :=
  match c, b with
  | some (.num q), some u => decide (u < q)
  | _, _ => false

/-- Python's `round(x, d)` (round half to even at `d` decimals), for the
nonnegative rationals the profiler rounds. -/
def pyRound (x : ℚ) (d : ℕ) : ℚ :=
  let p : ℚ := (10 : ℚ) ^ d
  let y := x * p
  let n : ℕ := qfloorNat y
  let fr := y - (n : ℚ)
  let r : ℕ :=
    if fr > 1 / 2 then n + 1
    else if fr < 1 / 2 then n
    else if n % 2 = 0 then n else n + 1
  (r : ℚ) / p

/-- Model of `DataProfiler._outlier_info(series)`: `None` for non-numeric storage
kinds; otherwise IQR bounds over the column after `dropna` and the count of
cells strictly outside them (`(series < lower) | (series > upper)` — a
missing cell compares `False` on both sides).  The percent is
`round(len(outliers)/len(series), 4) * 100`. -/
def outlier_info (kind : DKind) (cells : List Cell) : Option (ℕ × ℚ) :=
  if ¬ kind.isNumericKind then none
  else
    let bounds := calculate_iqr_bounds (dropnaNums cells)
    let oc := cells.countP (fun c => cellLT c bounds.1 || cellGT c bounds.2)
    some (oc, pyRound ((oc : ℚ) / (cells.length : ℚ)) 4 * 100)

/-- One entry of `DataProfiler.profile()["columns"]` (the raw-dtype string
is the `DKind` it is derived from). -/
structure ColumnProfile where
  dtype : DKind
  detected_type : String
  missing_count : ℕ
  missing_percent : ℚ
  unique_count : ℕ
  sample_value : Option Val
  is_constant : Bool
  outlier_info : Option (ℕ × ℚ)
deriving DecidableEq

/-- Model of `DataProfiler.profile()` for one column of storage kind `kind`. -/
def profileColumn (kind : DKind) (cells : List Cell) : ColumnProfile :=
  { dtype := kind
    detected_type := infer_column_type kind cells
    missing_count := missingCount cells
    missing_percent := pyRound (((missingCount cells : ℚ) / (cells.length : ℚ)) * 100) 2
    unique_count := nuniqueDropna cells
    sample_value := (cells.filterMap id).head?
    is_constant := nuniqueDropna cells == 1
    outlier_info := outlier_info kind cells }

/-- A heap of dataframe objects, for the aliasing behaviour of
`RuleEngine.__init__` / `apply`: Python names hold references (heap
addresses), `df.copy()` allocates a fresh object, and the engine's in-place
operations write only through the engine's own reference. -/
structure Heap where
  objs : List DataFrame

/-- Dereference an address. -/
def Heap.read (h : Heap) (a : ℕ) : DataFrame := h.objs.getD a ⟨[], []⟩

/-- Allocate a fresh object, returning its address. -/
def Heap.alloc (h : Heap) (d : DataFrame) : Heap × ℕ :=
  (⟨h.objs ++ [d]⟩, h.objs.length)

/-- Overwrite the object at an address (an in-place mutation). -/
def Heap.write (h : Heap) (a : ℕ) (d : DataFrame) : Heap :=
  ⟨h.objs.set a d⟩

/-- Model of `RuleEngine(df, rules).apply()` against the heap: `__init__` runs
`self.df = df.copy()`, allocating a fresh object from the caller's value;
every subsequent read and write of `self.df` (in-place drops, column
assignments, rebindings) goes through the engine's own address.  On an
uncaught exception the engine's object keeps whatever partial state it had;
either way only the engine's address is written. -/
def RuleEngine.applyOnHeap (h : Heap) (caller : ℕ) (rules : RuleSet) :
    Heap × Except String (List String) :=
  let (h1, selfAddr) := h.alloc (h.read caller)
  match RuleEngine.apply (h1.read selfAddr) rules with
  | .ok (d, audit) => (h1.write selfAddr d, .ok audit)
  | .error e => (h1, .error e)

/-- Claim C1 (evaluated at the failing inputs): `_handle_outliers` does not
treat the degenerate all-missing column as "zero outliers" — the NaN bounds
make every comparison `False`, so *all* rows are removed (first conjunct,
where the claim and spec §4.2 demand zero), and a row whose value in the
column is missing is removed rather than retained (second conjunct, on a
column whose IQR bounds are `[0, 4]` and whose non-missing values all lie
inside them). -/
theorem C1_outliers_remove_missing_and_degenerate_rows :
    handle_outliers ⟨["x"], [[none], [none]]⟩ [] "x"
        { outliers := some ⟨"iqr"⟩ } =
      (⟨["x"], []⟩, ["x: removed 2 outliers using IQR"]) ∧
    handle_outliers ⟨["x"], [[some (Val.num 1)], [some (Val.num 2)],
        [some (Val.num 3)], [none]]⟩ [] "x" { outliers := some ⟨"iqr"⟩ } =
      (⟨["x"], [[some (Val.num 1)], [some (Val.num 2)], [some (Val.num 3)]]⟩,
        ["x: removed 1 outliers using IQR"]) := by
  exact ⟨by with_unfolding_all rfl, by with_unfolding_all rfl⟩

/-- Claim C2 (evaluated at the failing input): the integer-valued column
`[1, 2, 2, 3, 1]` with numeric storage kind is classified `"datetime"`, not
`"numeric"` — `pd.to_datetime` parses integers as epoch nanoseconds, so the
datetime step claims every all-numeric column before the storage-kind check
can run. -/
theorem C2_int_column_classified_datetime :
    infer_column_type DKind.i
      [some (Val.num 1), some (Val.num 2), some (Val.num 2), some (Val.num 3),
        some (Val.num 1)] = "datetime" := by
  with_unfolding_all rfl

/-- Claim C4 (evaluated at the failing input): a `mode` fill on an
all-missing column evaluates `mode()[0]` on an empty mode list, raising
`KeyError: 0`; the exception aborts the whole `apply` call, so the second
column's rule is never processed — neither the "no-op fill" nor the
"remaining columns still processed" part of the claim holds. -/
theorem C4_mode_on_all_missing_aborts_apply :
    RuleEngine.apply
      ⟨["a", "b"], [[none, some (Val.num 1)], [none, some (Val.num 2)]]⟩
      { global_rules := some {},
        columns := some [("a", { missing := some { strategy := "mode" } }),
          ("b", { missing := some { strategy := "mean" } })] } =
      .error "KeyError: 0" := by
  with_unfolding_all rfl

/-- Claim C10: a ruleset whose `columns` key is absent is accepted — the
result is exactly the global phase's, with no per-column audit entries —
while an absent `global_rules` key makes the call fail, whatever `columns`
holds. -/
theorem C10_columns_optional_global_rules_mandatory
    (df : DataFrame) (g : GlobalRules) (cs : Option (List (String × Rule))) :
    RuleEngine.apply df { global_rules := some g, columns := none } =
      .ok (apply_global_rules df [] g) ∧
    RuleEngine.apply df { global_rules := none, columns := cs } =
      .error "KeyError: global_rules" :=
  ⟨rfl, rfl⟩

/-- Claim C6: on a retained column, a rule with `drop: true` removes the
column, appends exactly one audit entry, and short-circuits every other rule
fragment: the outcome coincides with that of a rule carrying *only*
`drop: true`, whatever type/missing/outliers fragments the rule also
carries. -/
theorem C6_drop_short_circuits (df : DataFrame) (audit : List String)
    (col : String) (r : Rule) (hdrop : r.drop = true)
    (hmem : (colIdx df.cols col).isSome = true) :
    applyColRule (df, audit) col r =
      .ok (dropColumn df col, audit ++ ["Dropped column: " ++ col]) ∧
    applyColRule (df, audit) col r = applyColRule (df, audit) col { drop := true } ∧
    (audit ++ ["Dropped column: " ++ col]).length = audit.length + 1 := by
  have hn : (colIdx df.cols col).isNone = false := by
    cases hx : colIdx df.cols col with
    | none => rw [hx] at hmem; simp at hmem
    | some i => rfl
  refine ⟨?_, ?_, by simp⟩
  · simp [applyColRule, hn, hdrop]
  · simp [applyColRule, hn, hdrop]

/-- Witness for C6 at a concrete dataframe and a rule that also carries a
`missing` fragment. -/
theorem C6_drop_short_circuits_witness :
    (({ drop := true, missing := some { strategy := "mean" } } : Rule).drop = true ∧
      (colIdx (DataFrame.mk ["a"] [[none]]).cols "a").isSome = true) ∧
    (applyColRule (⟨["a"], [[none]]⟩, []) "a"
        { drop := true, missing := some { strategy := "mean" } } =
      .ok (dropColumn ⟨["a"], [[none]]⟩ "a", [] ++ ["Dropped column: " ++ "a"]) ∧
    applyColRule (⟨["a"], [[none]]⟩, []) "a"
        { drop := true, missing := some { strategy := "mean" } } =
      applyColRule (⟨["a"], [[none]]⟩, []) "a" { drop := true } ∧
    (([] : List String) ++ ["Dropped column: " ++ "a"]).length =
      ([] : List String).length + 1) :=
  ⟨⟨rfl, rfl⟩, C6_drop_short_circuits ⟨["a"], [[none]]⟩ [] "a"
    { drop := true, missing := some { strategy := "mean" } } rfl rfl⟩

/-- Claim C7: `apply` never mutates the caller's dataframe.  In the heap
model, `__init__`'s `self.df = df.copy()` allocates a fresh object and every
subsequent write goes through the engine's own address, so whatever the
ruleset, the object at the caller's address is untouched. -/
theorem C7_apply_never_mutates_caller (h : Heap) (caller : ℕ) (rules : RuleSet)
    (hc : caller < h.objs.length) :
    ((RuleEngine.applyOnHeap h caller rules).1).read caller = h.read caller := by
  unfold RuleEngine.applyOnHeap
  simp only [Heap.alloc, Heap.read, Heap.write]
  split
  · rw [List.getD_eq_getElem?_getD, List.getD_eq_getElem?_getD,
      List.getElem?_set_ne (by omega), List.getElem?_append_left hc]
  · rw [List.getD_eq_getElem?_getD, List.getD_eq_getElem?_getD,
      List.getElem?_append_left hc]

/-- Witness for C7: a one-object heap, the caller holding address 0, and a
ruleset that drops duplicates and the only column. -/
theorem C7_apply_never_mutates_caller_witness :
    0 < (Heap.mk [⟨["a"], [[some (Val.num 1)], [some (Val.num 1)]]⟩]).objs.length ∧
    ((RuleEngine.applyOnHeap ⟨[⟨["a"], [[some (Val.num 1)], [some (Val.num 1)]]⟩]⟩ 0
        { global_rules := some { drop_duplicates := true },
          columns := some [("a", { drop := true })] }).1).read 0 =
      (Heap.mk [⟨["a"], [[some (Val.num 1)], [some (Val.num 1)]]⟩]).read 0 :=
  ⟨by decide,
    C7_apply_never_mutates_caller ⟨[⟨["a"], [[some (Val.num 1)], [some (Val.num 1)]]⟩]⟩ 0
      { global_rules := some { drop_duplicates := true },
        columns := some [("a", { drop := true })] } (by decide)⟩

/-- Helper: a predicate that is false on the missing cell is counted at most
`length - missingCount` times. -/
theorem countP_le_nonMissing (cells : List Cell) (p : Cell → Bool)
    (hp : p none = false) :
    cells.countP p + missingCount cells ≤ cells.length := by
  induction cells with
  | nil => simp [missingCount]
  | cons c cs ih =>
    simp only [missingCount, List.countP_cons, List.length_cons] at *
    cases c with
    | none => simp [hp]; omega
    | some v => cases hpv : p (some v) <;> simp [hpv] <;> omega

/-- Claim C9: for a column of numeric storage kind the profile carries an
`outlier_info`, and its count — taken by a mask that is `False` on missing
cells — never exceeds the number of non-missing cells. -/
theorem C9_outlier_count_le (kind : DKind) (cells : List Cell)
    (h : kind.isNumericKind = true) :
    ∃ oc op, (profileColumn kind cells).outlier_info = some (oc, op) ∧
      oc ≤ cells.length - missingCount cells := by
  refine ⟨cells.countP (fun c => cellLT c (calculate_iqr_bounds (dropnaNums cells)).1 ||
      cellGT c (calculate_iqr_bounds (dropnaNums cells)).2),
    pyRound ((cells.countP (fun c => cellLT c (calculate_iqr_bounds (dropnaNums cells)).1 ||
      cellGT c (calculate_iqr_bounds (dropnaNums cells)).2) : ℚ) / (cells.length : ℚ)) 4 * 100,
    ?_, ?_⟩
  · simp only [profileColumn, outlier_info, h, Bool.not_true]
    simp
  · have hcount := countP_le_nonMissing cells
      (fun c => cellLT c (calculate_iqr_bounds (dropnaNums cells)).1 ||
        cellGT c (calculate_iqr_bounds (dropnaNums cells)).2) rfl
    omega

/-- Witness for C9 at a float column with one value and one missing cell. -/
theorem C9_outlier_count_le_witness :
    DKind.f.isNumericKind = true ∧
    (∃ oc op, (profileColumn DKind.f [some (Val.num 1), none]).outlier_info =
        some (oc, op) ∧
      oc ≤ [some (Val.num 1), none].length -
        missingCount [some (Val.num 1), none]) :=
  ⟨rfl, C9_outlier_count_le DKind.f [some (Val.num 1), none] rfl⟩

/-- Counterexample to Claim C3 as stated: on the column
`["2024-01-01", missing, missing, missing]` the fraction of successfully
parsed values *over the non-missing values* is 1 ≥ 0.7, yet the code does
not classify the column as datetime (its denominator is the whole column:
1/4 < 0.7, and the column falls through to `"categorical"`). -/
theorem C3_counterexample :
    ¬ (infer_column_type DKind.obj
        [some (Val.str "2024-01-01"), none, none, none] = "datetime" ↔
      (7 : ℚ) / 10 ≤
        (([some (Val.str "2024-01-01"), none, none, none].countP
            (fun c => (toDatetimeCell c).isSome) : ℚ) /
          ([some (Val.str "2024-01-01"), none, none, none].countP
            (fun c => c.isSome) : ℚ))) := by
  intro hiff
  have h1 : infer_column_type DKind.obj
      [some (Val.str "2024-01-01"), none, none, none] = "categorical" := by
    with_unfolding_all rfl
  have h2 : (7 : ℚ) / 10 ≤
      (([some (Val.str "2024-01-01"), none, none, none].countP
          (fun c => (toDatetimeCell c).isSome) : ℚ) /
        ([some (Val.str "2024-01-01"), none, none, none].countP
          (fun c => c.isSome) : ℚ)) := by
    have e1 : [some (Val.str "2024-01-01"), none, none, none].countP
        (fun c => (toDatetimeCell c).isSome) = 1 := by decide
    have e2 : [some (Val.str "2024-01-01"), none, none, none].countP
        (fun c => c.isSome) = 1 := by decide
    rw [e1, e2]
    norm_num
  have := hiff.mpr h2
  rw [h1] at this
  exact absurd this (by decide)

/-- Claim C3 as amended: a column is classified datetime exactly when it is
non-empty and the fraction of successfully parsed values over *all* its
values — missing cells count in the denominator as parse failures — is at
least 0.7. -/
theorem C3_amended (kind : DKind) (cells : List Cell) :
    infer_column_type kind cells = "datetime" ↔
      (cells ≠ [] ∧
        (7 : ℚ) / 10 ≤ ((cells.countP (fun c => (toDatetimeCell c).isSome) : ℚ) /
          (cells.length : ℚ))) := by
  have hmap : (cells.map toDatetimeCell).countP (fun c => c.isSome) =
      cells.countP (fun c => (toDatetimeCell c).isSome) := by
    rw [List.countP_map]; rfl
  cases ht : try_parse_datetime cells with
  | true =>
    simp only [infer_column_type, ht, if_true, true_iff]
    unfold try_parse_datetime at ht
    rw [hmap] at ht
    by_cases h0 : cells.length = 0
    · rw [if_pos h0] at ht; cases ht
    · rw [if_neg h0] at ht
      exact ⟨fun he => h0 (by simp [he]), of_decide_eq_true ht⟩
  | false =>
    have hne : infer_column_type kind cells ≠ "datetime" := by
      unfold infer_column_type
      rw [ht]
      simp only [Bool.false_eq_true, if_false]
      split
      · decide
      · split
        · decide
        · decide
    simp only [hne, false_iff]
    unfold try_parse_datetime at ht
    rw [hmap] at ht
    by_cases h0 : cells.length = 0
    · intro hrhs
      exact hrhs.1 (List.length_eq_zero.mp h0)
    · rw [if_neg h0] at ht
      intro hrhs
      exact absurd (decide_eq_true hrhs.2) (by simpa [ge_iff_le] using ht)

/-- Helper: everything `dropDupAux` keeps avoids `seen` and comes from the
input. -/
theorem mem_dropDupAux {x : Row} :
    ∀ {l seen : List Row}, x ∈ dropDupAux seen l → x ∉ seen ∧ x ∈ l := by
  intro l
  induction l with
  | nil => intro seen h; simp [dropDupAux] at h
  | cons r rs ih =>
    intro seen h
    by_cases hr : r ∈ seen
    · rw [dropDupAux, if_pos hr] at h
      obtain ⟨h1, h2⟩ := ih h
      exact ⟨h1, List.mem_cons_of_mem _ h2⟩
    · rw [dropDupAux, if_neg hr] at h
      rcases List.mem_cons.mp h with heq | hmem
      · subst heq; exact ⟨hr, List.mem_cons_self _ _⟩
      · obtain ⟨h1, h2⟩ := ih hmem
        exact ⟨fun hs => h1 (List.mem_cons_of_mem _ hs), List.mem_cons_of_mem _ h2⟩

/-- Helper: `dropDupAux` returns a duplicate-free list. -/
theorem nodup_dropDupAux : ∀ (l seen : List Row), (dropDupAux seen l).Nodup := by
  intro l
  induction l with
  | nil => intro seen; simp [dropDupAux]
  | cons r rs ih =>
    intro seen
    by_cases hr : r ∈ seen
    · rw [dropDupAux, if_pos hr]; exact ih seen
    · rw [dropDupAux, if_neg hr]
      refine List.nodup_cons.mpr ⟨?_, ih (r :: seen)⟩
      intro hmem
      exact (mem_dropDupAux hmem).1 (List.mem_cons_self _ _)

/-- Helper: `dropDupAux` fixes a duplicate-free list disjoint from `seen`. -/
theorem dropDupAux_eq_self :
    ∀ (l seen : List Row), l.Nodup → (∀ x ∈ l, x ∉ seen) → dropDupAux seen l = l := by
  intro l
  induction l with
  | nil => intro seen _ _; rfl
  | cons r rs ih =>
    intro seen hnd hdis
    have hr : r ∉ seen := hdis r (List.mem_cons_self _ _)
    rw [dropDupAux, if_neg hr]
    congr 1
    refine ih (r :: seen) (List.nodup_cons.mp hnd).2 ?_
    intro x hx
    have hxr : x ≠ r := fun he => (List.nodup_cons.mp hnd).1 (he ▸ hx)
    intro hmem
    rcases List.mem_cons.mp hmem with he | hs
    · exact hxr he
    · exact hdis x (List.mem_cons_of_mem _ hx) hs

/-- Helper: duplicate dropping is idempotent on row lists. -/
theorem dropDupRows_idem (rows : List Row) :
    dropDupRows (dropDupRows rows) = dropDupRows rows :=
  dropDupAux_eq_self _ [] (nodup_dropDupAux rows [])
    (fun x _ hx => List.not_mem_nil x hx)

/-- Claim C8: applying the `drop_duplicates` global rule twice yields the
same dataframe as applying it once, and the second application's audit entry
reports zero rows removed. -/
theorem C8_dropdup_idempotent (df : DataFrame) :
    (apply_global_rules
        (apply_global_rules df [] { drop_duplicates := true }).1 []
        { drop_duplicates := true }).1 =
      (apply_global_rules df [] { drop_duplicates := true }).1 ∧
    (apply_global_rules
        (apply_global_rules df [] { drop_duplicates := true }).1 []
        { drop_duplicates := true }).2 =
      ["Dropped 0 duplicate rows"] := by
  simp only [apply_global_rules, if_true, if_false, List.nil_append]
  constructor
  · simp [dropDupRows_idem]
  · simp [dropDupRows_idem]
    rfl

/-- Helper: the character-list order is reflexive. -/
theorem strLeAux_refl : ∀ l : List Char, strLeAux l l = true := by
  intro l
  induction l with
  | nil => rfl
  | cons a as ih =>
    simp only [strLeAux, Nat.lt_irrefl, if_false]
    exact ih

/-- Helper: the character-list order is total. -/
theorem strLeAux_total : ∀ (l m : List Char),
    strLeAux l m = true ∨ strLeAux m l = true := by
  intro l
  induction l with
  | nil => intro m; left; rfl
  | cons a as ih =>
    intro m
    cases m with
    | nil => right; rfl
    | cons b bs =>
      rcases Nat.lt_trichotomy a.toNat b.toNat with h | h | h
      · left; simp [strLeAux, h]
      · have h1 : ¬ a.toNat < b.toNat := by omega
        have h2 : ¬ b.toNat < a.toNat := by omega
        rcases ih bs with hl | hr
        · left; simp [strLeAux, h1, h2, hl]
        · right; simp [strLeAux, h1, h2, hr]
      · right; simp [strLeAux, h]

/-- Helper: the character-list order is transitive. -/
theorem strLeAux_trans : ∀ (l m k : List Char),
    strLeAux l m = true → strLeAux m k = true → strLeAux l k = true := by
  intro l
  induction l with
  | nil => intro m k _ _; rfl
  | cons a as ih =>
    intro m k h1 h2
    cases m with
    | nil => simp [strLeAux] at h1
    | cons b bs =>
      cases k with
      | nil => simp [strLeAux] at h2
      | cons c cs =>
        simp only [strLeAux] at h1 h2 ⊢
        by_cases hab : a.toNat < b.toNat
        · by_cases hbc : b.toNat < c.toNat
          · simp [Nat.lt_trans hab hbc]
          · by_cases hcb : c.toNat < b.toNat
            · simp [hbc, hcb] at h2
            · have : a.toNat < c.toNat := by omega
              simp [this]
        · by_cases hba : b.toNat < a.toNat
          · simp [hab, hba] at h1
          · by_cases hbc : b.toNat < c.toNat
            · have : a.toNat < c.toNat := by omega
              simp [this]
            · by_cases hcb : c.toNat < b.toNat
              · simp [hbc, hcb] at h2
              · have h3 : ¬ a.toNat < c.toNat := by omega
                have h4 : ¬ c.toNat < a.toNat := by omega
                simp only [hab, hba, if_false] at h1
                simp only [hbc, hcb, if_false] at h2
                simp [h3, h4, ih bs cs h1 h2]

/-- Helper: the value order is reflexive. -/
theorem vle_refl : ∀ v : Val, vle v v = true := by
  intro v
  cases v with
  | num q => simp [vle]
  | dt n => simp [vle]
  | str s => exact strLeAux_refl s.toList

instance : IsTotal Val vleR :=
  ⟨by
    intro a b
    simp only [vleR]
    cases a <;> cases b <;>
      simp only [vle, strLe, decide_eq_true_eq]
    case num.num x y => exact le_total x y
    case dt.dt x y => exact le_total x y
    case str.str x y => exact strLeAux_total x.toList y.toList
    all_goals simp⟩

instance : IsTrans Val vleR :=
  ⟨by
    intro a b c h1 h2
    simp only [vleR] at h1 h2 ⊢
    cases a <;> cases b <;> cases c <;>
      simp only [vle, strLe, decide_eq_true_eq] at h1 h2 ⊢
    all_goals try exact absurd h1 (by decide)
    all_goals try exact absurd h2 (by decide)
    case num.num.num => exact le_trans h1 h2
    case dt.dt.dt => exact le_trans h1 h2
    case str.str.str x y z => exact strLeAux_trans x.toList y.toList z.toList h1 h2⟩

/-- Helper: every member of a list of naturals is at most its
`foldr max 0`. -/
theorem le_foldr_max (l : List ℕ) (x : ℕ) (hx : x ∈ l) : x ≤ l.foldr max 0 := by
  induction l with
  | nil => cases hx
  | cons a as ih =>
    rcases List.mem_cons.mp hx with he | hm
    · subst he; exact le_max_left _ _
    · exact le_trans (ih hm) (le_max_right _ _)

/-- Claim C5 as amended: the fill value `mode()[0]` is a mode (its count is
maximal among the non-missing values), and when several values are tied for
the maximum frequency, the one chosen is the *least in the value order the
mode list is sorted by* — not the first encountered. -/
theorem C5_amended (cells : List Cell) (m : Val) (ms : List Val)
    (h : seriesMode cells = m :: ms) :
    m ∈ cells.filterMap id ∧
    (∀ w ∈ cells.filterMap id,
      (cells.filterMap id).count w ≤ (cells.filterMap id).count m) ∧
    (∀ w ∈ cells.filterMap id,
      (cells.filterMap id).count w = (cells.filterMap id).count m →
        vle m w = true) := by
  have hsm : seriesMode cells = List.insertionSort vleR
      ((cells.filterMap id).dedup.filter
        (fun v => (cells.filterMap id).count v =
          (((cells.filterMap id).map (fun v => (cells.filterMap id).count v)).foldr max 0))) := rfl
  rw [hsm] at h
  have hm_sorted : m ∈ List.insertionSort vleR
      ((cells.filterMap id).dedup.filter
        (fun v => (cells.filterMap id).count v =
          (((cells.filterMap id).map (fun v => (cells.filterMap id).count v)).foldr max 0))) := by
    rw [h]; exact List.mem_cons_self _ _
  have hm_filter := (List.perm_insertionSort vleR _).mem_iff.mp hm_sorted
  have hm_dedup := (List.mem_filter.mp hm_filter).1
  have hm_count : (cells.filterMap id).count m =
      (((cells.filterMap id).map (fun v => (cells.filterMap id).count v)).foldr max 0) :=
    of_decide_eq_true (List.mem_filter.mp hm_filter).2
  have hm_vals : m ∈ cells.filterMap id := List.mem_dedup.mp hm_dedup
  refine ⟨hm_vals, ?_, ?_⟩
  · intro w hw
    rw [hm_count]
    exact le_foldr_max _ _ (List.mem_map_of_mem _ hw)
  · intro w hw hwc
    have hw_filter : w ∈ (cells.filterMap id).dedup.filter
        (fun v => (cells.filterMap id).count v =
          (((cells.filterMap id).map (fun v => (cells.filterMap id).count v)).foldr max 0)) :=
      List.mem_filter.mpr ⟨List.mem_dedup.mpr hw, decide_eq_true (hwc.trans hm_count)⟩
    have hw_sorted := (List.perm_insertionSort vleR _).mem_iff.mpr hw_filter
    rw [h] at hw_sorted
    rcases List.mem_cons.mp hw_sorted with he | hmem
    · subst he; exact vle_refl w
    · have hsorted : List.Sorted vleR (m :: ms) := by
        rw [← h]; exact List.sorted_insertionSort vleR _
      exact List.rel_of_sorted_cons hsorted w hmem

/-- Modelled from the spec: the fill value Claim C5 demands — "most frequent
non-missing value; if tied ... first encountered in original column
order". -/
def specModeFirstEncountered (cells : List Cell) : Option Val :=
  let vals := cells.filterMap id
  let maxFreq := (vals.map (fun v => vals.count v)).foldr max 0
  vals.find? (fun v => vals.count v = maxFreq)

/-- Counterexample to Claim C5 as stated: on the column
`["b", "a", "b", "a", missing]` the values "a" and "b" are tied, the first
encountered is "b", but the mode fill writes "a" — pandas sorts the tied
modes and `mode()[0]` takes the least, not the first encountered. -/
theorem C5_counterexample :
    handle_missing ⟨["c"], [[some (Val.str "b")], [some (Val.str "a")],
        [some (Val.str "b")], [some (Val.str "a")], [none]]⟩ [] "c"
      { missing := some { strategy := "mode" } } =
      .ok (⟨["c"], [[some (Val.str "b")], [some (Val.str "a")],
          [some (Val.str "b")], [some (Val.str "a")], [some (Val.str "a")]]⟩,
        ["c: missing handled (1 → 0) using mode"]) ∧
    specModeFirstEncountered (colCells ⟨["c"], [[some (Val.str "b")],
        [some (Val.str "a")], [some (Val.str "b")], [some (Val.str "a")],
        [none]]⟩ 0) = some (Val.str "b") ∧
    Val.str "a" ≠ Val.str "b" :=
  ⟨by with_unfolding_all rfl, by with_unfolding_all rfl, by decide⟩

/-- Witness for the amended C5 at a column whose unique mode is "a". -/
theorem C5_amended_witness :
    seriesMode [some (Val.str "b"), some (Val.str "a"), some (Val.str "a")] =
      Val.str "a" :: [] ∧
    (Val.str "a" ∈ [some (Val.str "b"), some (Val.str "a"),
        some (Val.str "a")].filterMap id ∧
      (∀ w ∈ [some (Val.str "b"), some (Val.str "a"),
          some (Val.str "a")].filterMap id,
        ([some (Val.str "b"), some (Val.str "a"),
          some (Val.str "a")].filterMap id).count w ≤
        ([some (Val.str "b"), some (Val.str "a"),
          some (Val.str "a")].filterMap id).count (Val.str "a")) ∧
      (∀ w ∈ [some (Val.str "b"), some (Val.str "a"),
          some (Val.str "a")].filterMap id,
        ([some (Val.str "b"), some (Val.str "a"),
          some (Val.str "a")].filterMap id).count w =
        ([some (Val.str "b"), some (Val.str "a"),
          some (Val.str "a")].filterMap id).count (Val.str "a") →
          vle (Val.str "a") w = true)) :=
  ⟨by with_unfolding_all rfl,
    C5_amended [some (Val.str "b"), some (Val.str "a"), some (Val.str "a")]
      (Val.str "a") [] (by with_unfolding_all rfl)⟩
